import Mathlib

/-!
# Verification of the physics-lab simulation engine

A shallow embedding of the simulation core found in
`src/workers/physics/{types,forces,integrators,engine}.ts`.

Numbers are modelled by an arbitrary linearly ordered field `K`
(instantiated at `ℚ` or `ℝ` in concrete statements); the irrational
primitive `Math.sqrt` (also underlying `Math.hypot`) is passed in as an
explicit function parameter `sqrt : K → K`, so every definition stays
executable.  Theorems whose truth depends on `sqrt` really being a square
root take that as an explicit hypothesis, discharged at `ℝ` with
`Real.sqrt`.

JavaScript `Map` objects keyed by strings are modelled by association
lists with `Map.set` replacement semantics, arrays by lists, `undefined`
optional fields by `Option`, and in-place mutation by functional update.
-/

section ListHelpers

variable {α : Type} {β : Type}

/-- In-place update of one array slot (`xs[i] = f(xs[i])`); out-of-range
indices leave the list unchanged. -/
def listModify : List α → Nat → (α → α) → List α
  | [], _, _ => []
  | a :: as, 0, f => f a :: as
  | a :: as, n + 1, f => a :: listModify as n f

/-- Worker for `listMapIdx`, carrying the index of the head element. -/
def listMapIdxGo (f : Nat → α → β) : Nat → List α → List β
  | _, [] => []
  | i, a :: as => f i a :: listMapIdxGo f (i + 1) as

/-- An indexed `for` loop over an array that rewrites every slot from its
index and previous value. -/
def listMapIdx (f : Nat → α → β) (l : List α) : List β :=
  listMapIdxGo f 0 l

/-- `Array.prototype.findIndex`-style search: index of the first element
satisfying the predicate. -/
def listFindIdx (p : α → Bool) : List α → Option Nat
  | [] => none
  | a :: as => if p a then some 0 else (listFindIdx p as).map (· + 1)

theorem listModify_length (l : List α) (i : Nat) (f : α → α) :
    (listModify l i f).length = l.length := by
  induction l generalizing i with
  | nil => rfl
  | cons a as ih =>
    cases i with
    | zero => rfl
    | succ n => simp [listModify, ih]

theorem listMapIdxGo_length (f : Nat → α → β) (k : Nat) (l : List α) :
    (listMapIdxGo f k l).length = l.length := by
  induction l generalizing k with
  | nil => rfl
  | cons a as ih => simp [listMapIdxGo, ih]

theorem listMapIdx_length (f : Nat → α → β) (l : List α) :
    (listMapIdx f l).length = l.length :=
  listMapIdxGo_length f 0 l

theorem listMapIdxGo_getD (f : Nat → α → β) (k : Nat) (l : List α)
    (i : Nat) (hd : α) (db : β) (h : i < l.length) :
    (listMapIdxGo f k l).getD i db = f (k + i) (l.getD i hd) := by
  induction l generalizing k i with
  | nil => simp at h
  | cons a as ih =>
    cases i with
    | zero => simp [listMapIdxGo]
    | succ n =>
      simp only [listMapIdxGo, List.getD_cons_succ]
      rw [ih (k + 1) n (by simpa using h)]
      ring_nf

theorem listMapIdx_getD (f : Nat → α → β) (l : List α)
    (i : Nat) (hd : α) (db : β) (h : i < l.length) :
    (listMapIdx f l).getD i db = f i (l.getD i hd) := by
  simpa using listMapIdxGo_getD f 0 l i hd db h

theorem listMapIdxGo_map (f : Nat → α → α) (g : α → β) (k : Nat) (l : List α)
    (h : ∀ i a, g (f i a) = g a) :
    (listMapIdxGo f k l).map g = l.map g := by
  induction l generalizing k with
  | nil => rfl
  | cons a as ih => simp [listMapIdxGo, h, ih]

theorem listMapIdx_map (f : Nat → α → α) (g : α → β) (l : List α)
    (h : ∀ i a, g (f i a) = g a) :
    (listMapIdx f l).map g = l.map g :=
  listMapIdxGo_map f g 0 l h

theorem listMapIdxGo_mem (f : Nat → α → β) (k : Nat) (l : List α) (b : β)
    (hb : b ∈ listMapIdxGo f k l) : ∃ i a, a ∈ l ∧ b = f i a := by
  induction l generalizing k with
  | nil => simp [listMapIdxGo] at hb
  | cons a as ih =>
    simp only [listMapIdxGo, List.mem_cons] at hb
    rcases hb with hb | hb
    · exact ⟨k, a, List.mem_cons_self a as, hb⟩
    · obtain ⟨i, c, hc, rfl⟩ := ih (k + 1) hb
      exact ⟨i, c, List.mem_cons_of_mem a hc, rfl⟩

theorem listMapIdx_mem (f : Nat → α → β) (l : List α) (b : β)
    (hb : b ∈ listMapIdx f l) : ∃ i a, a ∈ l ∧ b = f i a :=
  listMapIdxGo_mem f 0 l b hb

end ListHelpers

section MathTypes

variable {K : Type} [LinearOrderedField K]

/-- `Vector3 = [number, number, number]`. -/
structure Vec3 (K : Type) where
  x : K
  y : K
  z : K
deriving DecidableEq, Repr

/-- `Quaternion = [number, number, number, number]` in `[x,y,z,w]` order. -/
structure Quat (K : Type) where
  x : K
  y : K
  z : K
  w : K
deriving DecidableEq, Repr

/-- The zero vector `[0, 0, 0]`. -/
def v3zero : Vec3 K := ⟨0, 0, 0⟩

/-- `vecAdd` from `types.ts`. -/
def vecAdd (a b : Vec3 K) : Vec3 K :=
  ⟨a.x + b.x, a.y + b.y, a.z + b.z⟩

/-- `vecSub` from `types.ts`. -/
def vecSub (a b : Vec3 K) : Vec3 K :=
  ⟨a.x - b.x, a.y - b.y, a.z - b.z⟩

/-- `vecScale` from `types.ts`. -/
def vecScale (a : Vec3 K) (s : K) : Vec3 K :=
  ⟨a.x * s, a.y * s, a.z * s⟩

/-- `vecDot` from `types.ts`. -/
def vecDot (a b : Vec3 K) : K :=
  a.x * b.x + a.y * b.y + a.z * b.z

/-- `vecLength` from `types.ts`; `Math.sqrt` is the supplied `sqrt`. -/
def vecLength (sqrt : K → K) (a : Vec3 K) : K :=
  sqrt (vecDot a a)

/-- `vecNormalize` from `types.ts`: zero vector if the length is exactly 0. -/
def vecNormalize (sqrt : K → K) (a : Vec3 K) : Vec3 K :=
  let len := vecLength sqrt a
  if len = 0 then v3zero else vecScale a (1 / len)

/-- `quatMultiply` from `types.ts` (Hamilton product, `[x,y,z,w]` layout). -/
def quatMultiply (a b : Quat K) : Quat K :=
  ⟨a.w * b.x + a.x * b.w + a.y * b.z - a.z * b.y,
   a.w * b.y - a.x * b.z + a.y * b.w + a.z * b.x,
   a.w * b.z + a.x * b.y - a.y * b.x + a.z * b.w,
   a.w * b.w - a.x * b.x - a.y * b.y - a.z * b.z⟩

/-- Squared norm of a quaternion (the quantity under `Math.hypot`). -/
def quatNormSq (q : Quat K) : K :=
  q.x * q.x + q.y * q.y + q.z * q.z + q.w * q.w

/-- `quatNormalize` from `types.ts`: `Math.hypot(x,y,z,w)` is modelled as
`sqrt` of the sum of squares; a degenerate zero-length quaternion maps to
the identity `[0,0,0,1]`. -/
def quatNormalize (sqrt : K → K) (q : Quat K) : Quat K :=
  let len := sqrt (quatNormSq q)
  if len = 0 then ⟨0, 0, 0, 1⟩
  else ⟨q.x / len, q.y / len, q.z / len, q.w / len⟩

/-- `quatFromAngularVelocity` from `types.ts`: small-angle `[wx,wy,wz,0]`. -/
def quatFromAngularVelocity (omega : Vec3 K) : Quat K :=
  ⟨omega.x, omega.y, omega.z, 0⟩

end MathTypes

section DataModel

variable {K : Type} [LinearOrderedField K]

/-- `PointMassConfig` from `types.ts` (display-only fields kept). -/
structure PointMassConfig (K : Type) where
  id : String
  mass : K
  position : Vec3 K
  velocity : Vec3 K
  radius : Option K := none
  color : Option String := none
deriving DecidableEq, Repr

/-- `RigidBodyBoxConfig` from `types.ts`. -/
structure RigidBodyBoxConfig (K : Type) where
  id : String
  mass : K
  size : Vec3 K
  position : Vec3 K
  velocity : Vec3 K
  orientation : Quat K
  angularVelocity : Vec3 K
  color : Option String := none
deriving DecidableEq, Repr

/-- `SpringConfig` from `types.ts`. -/
structure SpringConfig (K : Type) where
  id : String
  aId : String
  bId : String
  restLength : K
  stiffness : K
  damping : Option K := none
deriving DecidableEq, Repr

/-- `GravityForceConfig` from `types.ts`. -/
structure GravityForceConfig (K : Type) where
  g : K
  direction : Option (Vec3 K) := none
deriving DecidableEq, Repr

/-- `LinearDragForceConfig` from `types.ts`. -/
structure LinearDragForceConfig (K : Type) where
  coefficient : K
deriving DecidableEq, Repr

/-- `ForcesConfig` from `types.ts`. -/
structure ForcesConfig (K : Type) where
  gravity : Option (GravityForceConfig K) := none
  linearDrag : Option (LinearDragForceConfig K) := none
deriving DecidableEq, Repr

/-- `IntegratorName = "euler" | "semi" | "rk4"`. -/
inductive IntegratorName where
  | euler
  | semi
  | rk4
deriving DecidableEq, Repr

/-- `JointConfig` from `types.ts` (declared but inert). -/
structure JointConfig where
  id : String
  aId : String
  bId : String
deriving DecidableEq, Repr

/-- `SimulationConfig` from `types.ts`. -/
structure SimulationConfig (K : Type) where
  dt : K
  integrator : IntegratorName
  snapshotIntervalMs : Option K := none
  forces : Option (ForcesConfig K) := none
  pointMasses : Option (List (PointMassConfig K)) := none
  rigidBodies : Option (List (RigidBodyBoxConfig K)) := none
  springs : Option (List (SpringConfig K)) := none
  joints : Option (List JointConfig) := none
deriving DecidableEq, Repr

/-- `PointMassState` from `types.ts`. -/
structure PointMassState (K : Type) where
  id : String
  mass : K
  position : Vec3 K
  velocity : Vec3 K
deriving DecidableEq, Repr

/-- `RigidBodyBoxState` from `types.ts`. -/
structure RigidBodyBoxState (K : Type) where
  id : String
  mass : K
  size : Vec3 K
  position : Vec3 K
  velocity : Vec3 K
  orientation : Quat K
  angularVelocity : Vec3 K
deriving DecidableEq, Repr

/-- `SimulationState` from `types.ts`; `stepIndex` is an integer count. -/
structure SimulationState (K : Type) where
  time : K
  stepIndex : Nat
  pointMasses : List (PointMassState K)
  rigidBodies : List (RigidBodyBoxState K)
deriving DecidableEq, Repr

/-- Dummy point mass standing for an out-of-range array read  — never hit on
states produced by the engine, whose index map always stays in range. -/
def pmDefault : PointMassState K :=
  ⟨"", 1, v3zero, v3zero⟩

/-- The `Derivative` record from `integrators.ts`. -/
structure Derivative (K : Type) where
  pointAccelerations : List (Vec3 K)
  rigidLinearAccelerations : List (Vec3 K)
  rigidAngularAccelerations : List (Vec3 K)
deriving DecidableEq, Repr

end DataModel

section Forces

variable {K : Type} [LinearOrderedField K]

/-- `forces?.gravity` optional chaining. -/
def optGravity (forces : Option (ForcesConfig K)) : Option (GravityForceConfig K) :=
  forces.bind (fun f => f.gravity)

/-- `forces?.linearDrag` optional chaining. -/
def optLinearDrag (forces : Option (ForcesConfig K)) : Option (LinearDragForceConfig K) :=
  forces.bind (fun f => f.linearDrag)

/-- `gravityAcceleration` from `forces.ts`: `a = g` along the configured
direction (default `[0,-1,0]`); zero when gravity is not configured. -/
def gravityAcceleration (_mass : K) (_position _velocity : Vec3 K)
    (config : Option (GravityForceConfig K)) : Vec3 K :=
  match config with
  | none => v3zero
  | some c => vecScale (c.direction.getD ⟨0, -1, 0⟩) c.g

/-- `linearDragAcceleration` from `forces.ts`: `a = (-b/m)·v`, zero when
drag is not configured or the mass is non-positive. -/
def linearDragAcceleration (mass : K) (_position velocity : Vec3 K)
    (config : Option (LinearDragForceConfig K)) : Vec3 K :=
  match config with
  | none => v3zero
  | some c =>
    if mass ≤ 0 then v3zero
    else vecScale velocity (-c.coefficient / mass)

/-- `sumAccelerationsForPointMass` from `forces.ts`. -/
def sumAccelerationsForPointMass (point : PointMassState K)
    (forces : Option (ForcesConfig K)) : Vec3 K :=
  vecAdd
    (gravityAcceleration point.mass point.position point.velocity (optGravity forces))
    (linearDragAcceleration point.mass point.position point.velocity (optLinearDrag forces))

end Forces

section IndexMap

/-- `Map.set` on a string-keyed map: replace the first binding of the key,
else append a fresh binding (JS `Map` replacement semantics). -/
def mapSet : List (String × Nat) → String → Nat → List (String × Nat)
  | [], k, v => [(k, v)]
  | p :: ps, k, v => if p.1 = k then (k, v) :: ps else p :: mapSet ps k v

/-- `Map.get` on a string-keyed map. -/
def mapGet : List (String × Nat) → String → Option Nat
  | [], _ => none
  | p :: ps, k => if p.1 = k then some p.2 else mapGet ps k

/-- Worker for `buildIndexMap`, carrying the index of the head config. -/
def buildIndexMapGo {K : Type} :
    Nat → List (PointMassConfig K) → List (String × Nat) → List (String × Nat)
  | _, [], m => m
  | i, pm :: pms, m => buildIndexMapGo (i + 1) pms (mapSet m pm.id i)

/-- The id→index map the engine constructor fills with
`pointMassIndexById.set(pm.id, idx)` while copying point masses. -/
def buildIndexMap {K : Type} (pms : List (PointMassConfig K)) : List (String × Nat) :=
  buildIndexMapGo 0 pms []

end IndexMap

section EngineDefs

variable {K : Type} [LinearOrderedField K]

/-- The private fields of the `PhysicsEngine` class from `engine.ts`:
configuration is copied at construction, `state` is the committed state. -/
structure Engine (K : Type) where
  dt : K
  integratorName : IntegratorName
  forces : Option (ForcesConfig K)
  pointMassIndexById : List (String × Nat)
  springs : List (SpringConfig K)
  state : SimulationState K
deriving DecidableEq, Repr

/-- The `PhysicsEngine` constructor: copies the point-mass and rigid-body
configs into owned state, fills the id→index map in config order, keeps
springs, and starts at `time = 0`, `stepIndex = 0`. -/
def construct (config : SimulationConfig K) : Engine K :=
  let pmc := config.pointMasses.getD []
  { dt := config.dt
    integratorName := config.integrator
    forces := config.forces
    pointMassIndexById := buildIndexMap pmc
    springs := config.springs.getD []
    state :=
      { time := 0
        stepIndex := 0
        pointMasses := pmc.map (fun pm =>
          { id := pm.id, mass := pm.mass, position := pm.position, velocity := pm.velocity })
        rigidBodies := (config.rigidBodies.getD []).map (fun rb =>
          { id := rb.id, mass := rb.mass, size := rb.size, position := rb.position,
            velocity := rb.velocity, orientation := rb.orientation,
            angularVelocity := rb.angularVelocity }) } }

/-- `getState()`: the source returns a JSON deep copy so that callers can
never alias engine-internal storage; on immutable values the copy is the
value itself. -/
def Engine.getState (e : Engine K) : SimulationState K :=
  e.state

/-- `applyImpulse(objectId, impulse)` from `engine.ts`: resolve the id
against point masses first (via the index map), then rigid bodies (first
match of a linear scan); `velocity += impulse/mass` directly on the
committed state; silently do nothing for an unknown id. -/
def Engine.applyImpulse (e : Engine K) (objectId : String) (impulse : Vec3 K) : Engine K :=
  match mapGet e.pointMassIndexById objectId with
  | some pmIndex =>
    { e with state :=
      { e.state with pointMasses := listModify e.state.pointMasses pmIndex (fun p =>
          { p with velocity := vecAdd p.velocity (vecScale impulse (1 / p.mass)) }) } }
  | none =>
    match listFindIdx (fun r => r.id = objectId) e.state.rigidBodies with
    | some rbIndex =>
      { e with state :=
        { e.state with rigidBodies := listModify e.state.rigidBodies rbIndex (fun r =>
            { r with velocity := vecAdd r.velocity (vecScale impulse (1 / r.mass)) }) } }
    | none => e

/-- The spring force vector of the `computeDerivative` loop body in
`engine.ts`: Hooke term along the current axis plus axial dashpot damping;
degenerate zero-distance springs get a zero direction. -/
def springForceVec (sqrt : K → K) (spring : SpringConfig K)
    (a b : PointMassState K) : Vec3 K :=
  let delta := vecSub b.position a.position
  let distance := vecLength sqrt delta
  let direction := if distance > 0 then vecScale delta (1 / distance) else v3zero
  let extension := distance - spring.restLength
  let relativeVel := vecSub b.velocity a.velocity
  let dampingAlong := (spring.damping.getD 0) *
    (relativeVel.x * direction.x + relativeVel.y * direction.y + relativeVel.z * direction.z)
  let forceMagnitude := -spring.stiffness * extension - dampingAlong
  vecScale direction forceMagnitude

/-- One iteration of the spring loop in `computeDerivative`: resolve both
anchors, silently skip the spring if either is unknown, otherwise add the
equal-and-opposite accelerations `+F/mₐ` and `−F/m_b` into the
accumulator. -/
def springAccumulate (sqrt : K → K) (idxMap : List (String × Nat))
    (st : SimulationState K) (accs : List (Vec3 K)) (spring : SpringConfig K) :
    List (Vec3 K) :=
  match mapGet idxMap spring.aId, mapGet idxMap spring.bId with
  | some ia, some ib =>
    let a := st.pointMasses.getD ia pmDefault
    let b := st.pointMasses.getD ib pmDefault
    let forceVec := springForceVec sqrt spring a b
    let accs1 := listModify accs ia (fun acc => vecAdd acc (vecScale forceVec (1 / a.mass)))
    listModify accs1 ib (fun acc => vecAdd acc (vecScale (vecScale forceVec (-1)) (1 / b.mass)))
  | _, _ => accs

/-- `computeDerivative` from `PhysicsEngine.step`: per-point-mass force
accelerations plus accumulated spring accelerations; rigid bodies get only
gravity and linear drag on the centre of mass and zero angular
acceleration. -/
def engineComputeDerivative (sqrt : K → K) (e : Engine K)
    (st : SimulationState K) : Derivative K :=
  let base := st.pointMasses.map (fun pm => sumAccelerationsForPointMass pm e.forces)
  let pointAccelerations := e.springs.foldl (springAccumulate sqrt e.pointMassIndexById st) base
  let rigidLinearAccelerations := st.rigidBodies.map (fun rb =>
    let gAcc := match optGravity e.forces with
      | some g => vecScale (g.direction.getD ⟨0, -1, 0⟩) g.g
      | none => v3zero
    let dragAcc := match optLinearDrag e.forces with
      | some d => vecScale rb.velocity (-d.coefficient / rb.mass)
      | none => v3zero
    vecAdd gAcc dragAcc)
  let rigidAngularAccelerations := st.rigidBodies.map (fun _ => v3zero)
  { pointAccelerations := pointAccelerations
    rigidLinearAccelerations := rigidLinearAccelerations
    rigidAngularAccelerations := rigidAngularAccelerations }

end EngineDefs

section Integrators

variable {K : Type} [LinearOrderedField K]

/-- `advanceOrientation` from `integrators.ts`: small-angle quaternion
advance `q + (0.5·ω·dt)⊗q` followed by renormalization. -/
def advanceOrientation (sqrt : K → K) (orientation : Quat K)
    (angularVelocity : Vec3 K) (dt : K) : Quat K :=
  let omegaQuat := quatFromAngularVelocity
    ⟨angularVelocity.x * (1 / 2) * dt, angularVelocity.y * (1 / 2) * dt,
     angularVelocity.z * (1 / 2) * dt⟩
  let dq := quatMultiply omegaQuat orientation
  let qNext : Quat K :=
    ⟨orientation.x + dq.x, orientation.y + dq.y, orientation.z + dq.z, orientation.w + dq.w⟩
  quatNormalize sqrt qNext

/-- `integrateEuler` from `integrators.ts`: positions advance with the old
velocities, then velocities advance with the current accelerations. -/
def integrateEuler (sqrt : K → K) (deriv : SimulationState K → Derivative K)
    (dt : K) (current : SimulationState K) : SimulationState K :=
  let derivative := deriv current
  { time := current.time + dt
    stepIndex := current.stepIndex + 1
    pointMasses := listMapIdx (fun i p =>
      let a := derivative.pointAccelerations.getD i v3zero
      { p with position := vecAdd p.position (vecScale p.velocity dt),
               velocity := vecAdd p.velocity (vecScale a dt) }) current.pointMasses
    rigidBodies := listMapIdx (fun i r =>
      let aL := derivative.rigidLinearAccelerations.getD i v3zero
      let aA := derivative.rigidAngularAccelerations.getD i v3zero
      let angularVelocity := vecAdd r.angularVelocity (vecScale aA dt)
      { r with position := vecAdd r.position (vecScale r.velocity dt),
               velocity := vecAdd r.velocity (vecScale aL dt),
               angularVelocity := angularVelocity,
               orientation := advanceOrientation sqrt r.orientation angularVelocity dt })
      current.rigidBodies }

/-- `integrateSemiImplicitEuler` from `integrators.ts`: velocities advance
first, positions then advance with the new velocities. -/
def integrateSemiImplicitEuler (sqrt : K → K)
    (deriv : SimulationState K → Derivative K) (dt : K)
    (current : SimulationState K) : SimulationState K :=
  let derivative := deriv current
  { time := current.time + dt
    stepIndex := current.stepIndex + 1
    pointMasses := listMapIdx (fun i p =>
      let a := derivative.pointAccelerations.getD i v3zero
      let velocity := vecAdd p.velocity (vecScale a dt)
      { p with velocity := velocity,
               position := vecAdd p.position (vecScale velocity dt) }) current.pointMasses
    rigidBodies := listMapIdx (fun i r =>
      let aL := derivative.rigidLinearAccelerations.getD i v3zero
      let aA := derivative.rigidAngularAccelerations.getD i v3zero
      let velocity := vecAdd r.velocity (vecScale aL dt)
      let angularVelocity := vecAdd r.angularVelocity (vecScale aA dt)
      { r with velocity := velocity,
               position := vecAdd r.position (vecScale velocity dt),
               angularVelocity := angularVelocity,
               orientation := advanceOrientation sqrt r.orientation angularVelocity dt })
      current.rigidBodies }

/-- One intermediate RK4 stage state (the `s2`/`s3`/`s4` blocks of
`integrateRK4`): positions advance with the current velocities over the
stage step `h`, velocities with the previous stage's accelerations; rigid
bodies also advance angular velocity and orientation.  `time` and
`stepIndex` are untouched. -/
def rk4Stage (sqrt : K → K) (d : Derivative K) (h : K)
    (st : SimulationState K) : SimulationState K :=
  { st with
    pointMasses := listMapIdx (fun i p =>
      { p with position := vecAdd p.position (vecScale p.velocity h),
               velocity := vecAdd p.velocity (vecScale (d.pointAccelerations.getD i v3zero) h) })
      st.pointMasses
    rigidBodies := listMapIdx (fun i r =>
      let angularVelocity :=
        vecAdd r.angularVelocity (vecScale (d.rigidAngularAccelerations.getD i v3zero) h)
      { r with position := vecAdd r.position (vecScale r.velocity h),
               velocity := vecAdd r.velocity (vecScale (d.rigidLinearAccelerations.getD i v3zero) h),
               angularVelocity := angularVelocity,
               orientation := advanceOrientation sqrt r.orientation angularVelocity h })
      st.rigidBodies }

/-- `integrateRK4` from `integrators.ts`: four derivative evaluations
(current state, two half-`dt` stages, one full-`dt` stage), velocities
advance by the `(k1 + 2k2 + 2k3 + k4)·dt/6` blend, and positions advance
with the freshly updated velocities over the full `dt`. -/
def integrateRK4 (sqrt : K → K) (deriv : SimulationState K → Derivative K)
    (dt : K) (current : SimulationState K) : SimulationState K :=
  let halfDt := dt * (1 / 2)
  let k1 := deriv current
  let s2 := rk4Stage sqrt k1 halfDt current
  let k2 := deriv s2
  let s3 := rk4Stage sqrt k2 halfDt current
  let k3 := deriv s3
  let s4 := rk4Stage sqrt k3 dt current
  let k4 := deriv s4
  { time := current.time + dt
    stepIndex := current.stepIndex + 1
    pointMasses := listMapIdx (fun i p =>
      let a1 := k1.pointAccelerations.getD i v3zero
      let a2 := k2.pointAccelerations.getD i v3zero
      let a3 := k3.pointAccelerations.getD i v3zero
      let a4 := k4.pointAccelerations.getD i v3zero
      let vDelta := vecScale
        ⟨a1.x + 2 * a2.x + 2 * a3.x + a4.x,
         a1.y + 2 * a2.y + 2 * a3.y + a4.y,
         a1.z + 2 * a2.z + 2 * a3.z + a4.z⟩ (dt / 6)
      let velocity := vecAdd p.velocity vDelta
      { p with velocity := velocity,
               position := vecAdd p.position (vecScale velocity dt) }) current.pointMasses
    rigidBodies := listMapIdx (fun i r =>
      let l1 := k1.rigidLinearAccelerations.getD i v3zero
      let l2 := k2.rigidLinearAccelerations.getD i v3zero
      let l3 := k3.rigidLinearAccelerations.getD i v3zero
      let l4 := k4.rigidLinearAccelerations.getD i v3zero
      let aL : Vec3 K :=
        ⟨l1.x + 2 * l2.x + 2 * l3.x + l4.x,
         l1.y + 2 * l2.y + 2 * l3.y + l4.y,
         l1.z + 2 * l2.z + 2 * l3.z + l4.z⟩
      let g1 := k1.rigidAngularAccelerations.getD i v3zero
      let g2 := k2.rigidAngularAccelerations.getD i v3zero
      let g3 := k3.rigidAngularAccelerations.getD i v3zero
      let g4 := k4.rigidAngularAccelerations.getD i v3zero
      let aA : Vec3 K :=
        ⟨g1.x + 2 * g2.x + 2 * g3.x + g4.x,
         g1.y + 2 * g2.y + 2 * g3.y + g4.y,
         g1.z + 2 * g2.z + 2 * g3.z + g4.z⟩
      let velocity := vecAdd r.velocity (vecScale aL (dt / 6))
      let angularVelocity := vecAdd r.angularVelocity (vecScale aA (dt / 6))
      { r with velocity := velocity,
               angularVelocity := angularVelocity,
               position := vecAdd r.position (vecScale velocity dt),
               orientation := advanceOrientation sqrt r.orientation angularVelocity dt })
      current.rigidBodies }

/-- `pickIntegrator` from `integrators.ts` (the `switch` is exhaustive,
its `default` arm coincides with the `"rk4"` arm). -/
def pickIntegrator (name : IntegratorName) :
    (K → K) → (SimulationState K → Derivative K) → K → SimulationState K → SimulationState K :=
  match name with
  | .euler => integrateEuler
  | .semi => integrateSemiImplicitEuler
  | .rk4 => integrateRK4

/-- `PhysicsEngine.step()`: commit the state produced by the configured
integrator fed with the engine's own derivative evaluator. -/
def Engine.step (sqrt : K → K) (e : Engine K) : Engine K :=
  { e with state :=
      pickIntegrator e.integratorName sqrt (engineComputeDerivative sqrt e) e.dt e.state }

/-- `n` successive `step()` calls. -/
def stepN (sqrt : K → K) : Nat → Engine K → Engine K
  | 0, e => e
  | n + 1, e => stepN sqrt n (Engine.step sqrt e)

end Integrators

section Operational

variable {K : Type} [LinearOrderedField K]

/-- A driver command sent to the engine: one `step()` or one
`applyImpulse(objectId, impulse)`. -/
inductive EngineOp (K : Type) where
  | step : EngineOp K
  | impulse (objectId : String) (impulse : Vec3 K) : EngineOp K

/-- The observable transition relation of the engine, one constructor per
control path of `step`/`applyImpulse` in `engine.ts` (point-mass impulse,
rigid-body impulse, unknown-id no-op, integration step). -/
inductive EngineTransition (sqrt : K → K) :
    Engine K → EngineOp K → Engine K → Prop where
  | stepOp (e : Engine K) :
      EngineTransition sqrt e EngineOp.step (Engine.step sqrt e)
  | impulsePointMass (e : Engine K) (objectId : String) (J : Vec3 K) (i : Nat)
      (h : mapGet e.pointMassIndexById objectId = some i) :
      EngineTransition sqrt e (EngineOp.impulse objectId J)
        { e with state :=
          { e.state with pointMasses := listModify e.state.pointMasses i (fun p =>
              { p with velocity := vecAdd p.velocity (vecScale J (1 / p.mass)) }) } }
  | impulseRigidBody (e : Engine K) (objectId : String) (J : Vec3 K) (j : Nat)
      (h1 : mapGet e.pointMassIndexById objectId = none)
      (h2 : listFindIdx (fun r => r.id = objectId) e.state.rigidBodies = some j) :
      EngineTransition sqrt e (EngineOp.impulse objectId J)
        { e with state :=
          { e.state with rigidBodies := listModify e.state.rigidBodies j (fun r =>
              { r with velocity := vecAdd r.velocity (vecScale J (1 / r.mass)) }) } }
  | impulseMiss (e : Engine K) (objectId : String) (J : Vec3 K)
      (h1 : mapGet e.pointMassIndexById objectId = none)
      (h2 : listFindIdx (fun r => r.id = objectId) e.state.rigidBodies = none) :
      EngineTransition sqrt e (EngineOp.impulse objectId J) e

/-- A driven run of the engine: the list of states observed through
`getState()` after each command. -/
inductive EngineTrace (sqrt : K → K) :
    Engine K → List (EngineOp K) → List (SimulationState K) → Prop where
  | nil (e : Engine K) : EngineTrace sqrt e [] []
  | cons (e e' : Engine K) (op : EngineOp K) (ops : List (EngineOp K))
      (sts : List (SimulationState K))
      (hstep : EngineTransition sqrt e op e')
      (hrest : EngineTrace sqrt e' ops sts) :
      EngineTrace sqrt e (op :: ops) (Engine.getState e' :: sts)

end Operational

section BasicLemmas

variable {α : Type}

theorem listModify_getD_self (l : List α) (i : Nat) (f : α → α) (d : α)
    (h : i < l.length) :
    (listModify l i f).getD i d = f (l.getD i d) := by
  induction l generalizing i with
  | nil => simp at h
  | cons a as ih =>
    cases i with
    | zero => rfl
    | succ n => simpa [listModify] using ih n (by simpa using h)

theorem listModify_getD_ne (l : List α) (i j : Nat) (f : α → α) (d : α)
    (h : j ≠ i) :
    (listModify l i f).getD j d = l.getD j d := by
  induction l generalizing i j with
  | nil => rfl
  | cons a as ih =>
    cases i with
    | zero =>
      cases j with
      | zero => exact absurd rfl h
      | succ m => rfl
    | succ n =>
      cases j with
      | zero => rfl
      | succ m => simpa [listModify] using ih n m (by omega)

theorem listFindIdx_eq_none (p : α → Bool) (l : List α)
    (h : ∀ a ∈ l, p a = false) : listFindIdx p l = none := by
  induction l with
  | nil => rfl
  | cons a as ih =>
    simp only [listFindIdx, h a (List.mem_cons_self a as)]
    simp [ih (fun b hb => h b (List.mem_cons_of_mem a hb))]

end BasicLemmas

section EngineLemmas

variable {K : Type} [LinearOrderedField K]

theorem Engine.step_dt (sqrt : K → K) (e : Engine K) :
    (Engine.step sqrt e).dt = e.dt := rfl

/-- Any of the three integrators advances `time` by `dt` and `stepIndex`
by one. -/
theorem Engine.step_time_stepIndex (sqrt : K → K) (e : Engine K) :
    (Engine.step sqrt e).state.time = e.state.time + e.dt ∧
      (Engine.step sqrt e).state.stepIndex = e.state.stepIndex + 1 := by
  cases h : e.integratorName <;>
    simp [Engine.step, pickIntegrator, h, integrateEuler,
      integrateSemiImplicitEuler, integrateRK4]

theorem stepN_time_stepIndex (sqrt : K → K) (n : Nat) (e : Engine K) :
    (stepN sqrt n e).state.time = e.state.time + (n : K) * e.dt ∧
      (stepN sqrt n e).state.stepIndex = e.state.stepIndex + n := by
  induction n generalizing e with
  | zero => simp [stepN]
  | succ m ih =>
    have hstep := Engine.step_time_stepIndex sqrt e
    have hrec := ih (Engine.step sqrt e)
    rw [Engine.step_dt] at hrec
    simp only [stepN]
    refine ⟨?_, ?_⟩
    · rw [hrec.1, hstep.1]; push_cast; ring
    · rw [hrec.2, hstep.2]; omega

end EngineLemmas

section ClaimC2

variable {K : Type} [LinearOrderedField K]

/-- C2: from construction (`time = 0`, `stepIndex = 0`), every `step()`
call adds exactly `dt` to `time` and exactly 1 to `stepIndex`, whichever
of the three integrators is configured, so after `n` calls `time = n·dt`
and `stepIndex = n`. -/
theorem time_and_stepIndex_lockstep (sqrt : K → K) (c : SimulationConfig K) (n : Nat) :
    (construct c).state.time = 0 ∧
    (construct c).state.stepIndex = 0 ∧
    (∀ e : Engine K,
      (Engine.step sqrt e).state.time = e.state.time + e.dt ∧
        (Engine.step sqrt e).state.stepIndex = e.state.stepIndex + 1) ∧
    (stepN sqrt n (construct c)).state.time = (n : K) * c.dt ∧
    (stepN sqrt n (construct c)).state.stepIndex = n := by
  have h := stepN_time_stepIndex sqrt n (construct c)
  refine ⟨rfl, rfl, fun e => Engine.step_time_stepIndex sqrt e, ?_, ?_⟩
  · rw [h.1]; show (0 : K) + (n : K) * c.dt = (n : K) * c.dt; ring
  · rw [h.2]; exact Nat.zero_add n

end ClaimC2

section ClaimC10

variable {K : Type} [LinearOrderedField K]

/-- C10: a `step()` with any integrator keeps the number and order of
point masses and rigid bodies, every body's `id` and `mass`, and every
rigid body's `size`; only kinematic fields and `time`/`stepIndex` can
change. -/
theorem step_preserves_structure (sqrt : K → K) (e : Engine K) :
    (Engine.step sqrt e).state.pointMasses.map (fun p => (p.id, p.mass)) =
      e.state.pointMasses.map (fun p => (p.id, p.mass)) ∧
    (Engine.step sqrt e).state.rigidBodies.map (fun r => (r.id, r.mass, r.size)) =
      e.state.rigidBodies.map (fun r => (r.id, r.mass, r.size)) := by
  cases h : e.integratorName <;>
    simp only [Engine.step, pickIntegrator, h, integrateEuler,
      integrateSemiImplicitEuler, integrateRK4] <;>
    exact ⟨listMapIdx_map _ _ _ (fun i a => rfl), listMapIdx_map _ _ _ (fun i a => rfl)⟩

end ClaimC10

section ClaimC1

variable {K : Type} [LinearOrderedField K]

/-- C1: when `objectId` resolves to the point mass at index `i`,
`applyImpulse(objectId, J)` adds exactly `J/m` to that point mass's
velocity componentwise, and leaves its position, its identity and mass,
and the state's `time` and `stepIndex` untouched — whatever integrator is
configured, since the update bypasses the integrator entirely. -/
theorem applyImpulse_changes_velocity_by_J_div_m (e : Engine K)
    (objectId : String) (J : Vec3 K) (i : Nat)
    (hmap : mapGet e.pointMassIndexById objectId = some i)
    (hi : i < e.state.pointMasses.length) :
    ((e.applyImpulse objectId J).state.pointMasses.getD i pmDefault).velocity =
      vecAdd (e.state.pointMasses.getD i pmDefault).velocity
        ⟨J.x / (e.state.pointMasses.getD i pmDefault).mass,
         J.y / (e.state.pointMasses.getD i pmDefault).mass,
         J.z / (e.state.pointMasses.getD i pmDefault).mass⟩ ∧
    ((e.applyImpulse objectId J).state.pointMasses.getD i pmDefault).position =
      (e.state.pointMasses.getD i pmDefault).position ∧
    ((e.applyImpulse objectId J).state.pointMasses.getD i pmDefault).id =
      (e.state.pointMasses.getD i pmDefault).id ∧
    ((e.applyImpulse objectId J).state.pointMasses.getD i pmDefault).mass =
      (e.state.pointMasses.getD i pmDefault).mass ∧
    (e.applyImpulse objectId J).state.time = e.state.time ∧
    (e.applyImpulse objectId J).state.stepIndex = e.state.stepIndex ∧
    (e.applyImpulse objectId J).state.rigidBodies = e.state.rigidBodies := by
  simp only [Engine.applyImpulse, hmap]
  rw [listModify_getD_self _ _ _ _ hi]
  simp [vecAdd, vecScale, div_eq_mul_inv]

end ClaimC1

section ClaimC8

variable {K : Type} [LinearOrderedField K]

/-- C8: an impulse aimed at an id that resolves to no point mass (the
id→index map has no binding) and to no rigid body in the state is a
complete no-op: the engine, hence every body's velocity and position and
the state's `time`/`stepIndex`, is unchanged, and the operation returns
nothing to the caller. -/
theorem applyImpulse_unknown_id_noop (e : Engine K) (objectId : String) (J : Vec3 K)
    (hmap : mapGet e.pointMassIndexById objectId = none)
    (hrb : ∀ r ∈ e.state.rigidBodies, r.id ≠ objectId) :
    e.applyImpulse objectId J = e := by
  have hfind : listFindIdx (fun r => r.id = objectId) e.state.rigidBodies = none := by
    refine listFindIdx_eq_none _ _ (fun r hr => ?_)
    simpa using hrb r hr
  simp [Engine.applyImpulse, hmap, hfind]

end ClaimC8

section ClaimC6

variable {K : Type} [LinearOrderedField K]

/-- C6: one semi-implicit Euler step maps each point mass to
`v' = v + a·dt` followed by `x' = x + v'·dt` with the freshly updated
velocity, where `a` is the derivative evaluator's acceleration for that
point mass at the current state. -/
theorem semiImplicit_pointMass_update (sqrt : K → K)
    (deriv : SimulationState K → Derivative K) (dt : K)
    (st : SimulationState K) (i : Nat) (hi : i < st.pointMasses.length) :
    ((integrateSemiImplicitEuler sqrt deriv dt st).pointMasses.getD i pmDefault).velocity =
      vecAdd (st.pointMasses.getD i pmDefault).velocity
        (vecScale ((deriv st).pointAccelerations.getD i v3zero) dt) ∧
    ((integrateSemiImplicitEuler sqrt deriv dt st).pointMasses.getD i pmDefault).position =
      vecAdd (st.pointMasses.getD i pmDefault).position
        (vecScale
          (vecAdd (st.pointMasses.getD i pmDefault).velocity
            (vecScale ((deriv st).pointAccelerations.getD i v3zero) dt)) dt) := by
  simp only [integrateSemiImplicitEuler]
  rw [listMapIdx_getD _ _ i pmDefault pmDefault hi]
  exact ⟨rfl, rfl⟩

end ClaimC6

section ClaimC7

variable {K : Type} [LinearOrderedField K]

theorem springAccumulate_unresolved (sqrt : K → K) (idxMap : List (String × Nat))
    (st : SimulationState K) (accs : List (Vec3 K)) (spr : SpringConfig K)
    (hun : mapGet idxMap spr.aId = none ∨ mapGet idxMap spr.bId = none) :
    springAccumulate sqrt idxMap st accs spr = accs := by
  rcases hun with h | h
  · simp [springAccumulate, h]
  · cases ha : mapGet idxMap spr.aId <;> simp [springAccumulate, ha, h]

/-- C7: a spring whose `aId` or `bId` has no binding in the id→index map
contributes nothing: the derivative evaluator returns exactly what it
returns without that spring, and a `step()` commits exactly the state it
would commit without it (silent skip, no error path exists). -/
theorem step_skips_unresolved_spring (sqrt : K → K) (e : Engine K)
    (spr : SpringConfig K) (l1 l2 : List (SpringConfig K))
    (hsp : e.springs = l1 ++ spr :: l2)
    (hun : mapGet e.pointMassIndexById spr.aId = none ∨
           mapGet e.pointMassIndexById spr.bId = none) :
    (∀ st : SimulationState K,
      engineComputeDerivative sqrt e st =
        engineComputeDerivative sqrt { e with springs := l1 ++ l2 } st) ∧
    (Engine.step sqrt e).state = (Engine.step sqrt { e with springs := l1 ++ l2 }).state := by
  have hderiv : ∀ st : SimulationState K,
      engineComputeDerivative sqrt e st =
        engineComputeDerivative sqrt { e with springs := l1 ++ l2 } st := by
    intro st
    simp only [engineComputeDerivative, hsp]
    rw [List.foldl_append, List.foldl_append, List.foldl_cons,
      springAccumulate_unresolved sqrt _ _ _ _ hun]
  refine ⟨hderiv, ?_⟩
  simp only [Engine.step]
  have : engineComputeDerivative sqrt e =
      engineComputeDerivative sqrt { e with springs := l1 ++ l2 } :=
    funext hderiv
  rw [this]

end ClaimC7

section ClaimC3

variable {K : Type} [LinearOrderedField K]

/-- C3: one RK4 step evaluates the derivative at the current state (`k1`),
at two intermediate states advanced by half `dt` (`k2`, `k3`) and at an
intermediate state advanced by the full `dt` (`k4`), sets the new velocity
to `v + (k1 + 2k2 + 2k3 + k4)·(dt/6)` componentwise, and sets the new
position to `x + v'·dt` using the freshly updated velocity — not a
weighted blend of stage velocities. -/
theorem rk4_pointMass_update (sqrt : K → K)
    (deriv : SimulationState K → Derivative K) (dt : K)
    (st : SimulationState K) (i : Nat) (hi : i < st.pointMasses.length) :
    ((integrateRK4 sqrt deriv dt st).pointMasses.getD i pmDefault).velocity =
      vecAdd (st.pointMasses.getD i pmDefault).velocity
        (vecScale
          ⟨((deriv st).pointAccelerations.getD i v3zero).x
              + 2 * ((deriv (rk4Stage sqrt (deriv st) (dt * (1 / 2)) st)).pointAccelerations.getD i v3zero).x
              + 2 * ((deriv (rk4Stage sqrt (deriv (rk4Stage sqrt (deriv st) (dt * (1 / 2)) st)) (dt * (1 / 2)) st)).pointAccelerations.getD i v3zero).x
              + ((deriv (rk4Stage sqrt (deriv (rk4Stage sqrt (deriv (rk4Stage sqrt (deriv st) (dt * (1 / 2)) st)) (dt * (1 / 2)) st)) dt st)).pointAccelerations.getD i v3zero).x,
           ((deriv st).pointAccelerations.getD i v3zero).y
              + 2 * ((deriv (rk4Stage sqrt (deriv st) (dt * (1 / 2)) st)).pointAccelerations.getD i v3zero).y
              + 2 * ((deriv (rk4Stage sqrt (deriv (rk4Stage sqrt (deriv st) (dt * (1 / 2)) st)) (dt * (1 / 2)) st)).pointAccelerations.getD i v3zero).y
              + ((deriv (rk4Stage sqrt (deriv (rk4Stage sqrt (deriv (rk4Stage sqrt (deriv st) (dt * (1 / 2)) st)) (dt * (1 / 2)) st)) dt st)).pointAccelerations.getD i v3zero).y,
           ((deriv st).pointAccelerations.getD i v3zero).z
              + 2 * ((deriv (rk4Stage sqrt (deriv st) (dt * (1 / 2)) st)).pointAccelerations.getD i v3zero).z
              + 2 * ((deriv (rk4Stage sqrt (deriv (rk4Stage sqrt (deriv st) (dt * (1 / 2)) st)) (dt * (1 / 2)) st)).pointAccelerations.getD i v3zero).z
              + ((deriv (rk4Stage sqrt (deriv (rk4Stage sqrt (deriv (rk4Stage sqrt (deriv st) (dt * (1 / 2)) st)) (dt * (1 / 2)) st)) dt st)).pointAccelerations.getD i v3zero).z⟩
          (dt / 6)) ∧
    ((integrateRK4 sqrt deriv dt st).pointMasses.getD i pmDefault).position =
      vecAdd (st.pointMasses.getD i pmDefault).position
        (vecScale ((integrateRK4 sqrt deriv dt st).pointMasses.getD i pmDefault).velocity dt) := by
  simp only [integrateRK4]
  rw [listMapIdx_getD _ _ i pmDefault pmDefault hi]
  exact ⟨rfl, rfl⟩

end ClaimC3

section ClaimC9

variable {K : Type} [LinearOrderedField K]

/-- A single engine transition is a function of the pre-state and the
command: no two distinct post-states are reachable by the same command. -/
theorem engineTransition_deterministic (sqrt : K → K) {e e1 e2 : Engine K}
    {op : EngineOp K}
    (h1 : EngineTransition sqrt e op e1) (h2 : EngineTransition sqrt e op e2) :
    e1 = e2 := by
  cases h1 <;> cases h2 <;> simp_all

theorem engineTrace_deterministic (sqrt : K → K) {e : Engine K}
    {ops : List (EngineOp K)} {sts1 sts2 : List (SimulationState K)}
    (h1 : EngineTrace sqrt e ops sts1) (h2 : EngineTrace sqrt e ops sts2) :
    sts1 = sts2 := by
  induction h1 generalizing sts2 with
  | nil e => cases h2; rfl
  | cons e e' op ops sts hstep hrest ih =>
    cases h2 with
    | cons _ e'' _ _ sts' hstep' hrest' =>
      obtain rfl : e' = e'' := engineTransition_deterministic sqrt hstep hstep'
      rw [ih hrest']

/-- C9: the engine is deterministic — two engines built from the same
configuration and driven by the same sequence of `step()` and
`applyImpulse()` commands observe identical sequences of `getState()`
snapshots; the transition relation admits no engine-local
nondeterminism. -/
theorem engine_run_deterministic (sqrt : K → K) (c : SimulationConfig K)
    (ops : List (EngineOp K)) (sts1 sts2 : List (SimulationState K))
    (h1 : EngineTrace sqrt (construct c) ops sts1)
    (h2 : EngineTrace sqrt (construct c) ops sts2) :
    sts1 = sts2 :=
  engineTrace_deterministic sqrt h1 h2

end ClaimC9

section ClaimC5

variable {K : Type} [LinearOrderedField K]

/-- When `sqrt` is a genuine square root on nonnegative inputs,
`quatNormalize` always returns a quaternion of squared norm exactly 1
(the degenerate branch returns the identity). -/
theorem quatNormalize_normSq (sqrt : K → K)
    (hs : ∀ x : K, 0 ≤ x → sqrt x * sqrt x = x) (q : Quat K) :
    quatNormSq (quatNormalize sqrt q) = 1 := by
  obtain ⟨X, Y, Z, W⟩ := q
  have hS0 : (0 : K) ≤ X * X + Y * Y + Z * Z + W * W := by
    nlinarith [mul_self_nonneg X, mul_self_nonneg Y, mul_self_nonneg Z, mul_self_nonneg W]
  have hlen := hs _ hS0
  simp only [quatNormalize, quatNormSq]
  by_cases h : sqrt (X * X + Y * Y + Z * Z + W * W) = 0
  · rw [if_pos h]
    norm_num
  · rw [if_neg h]
    have hSne : X * X + Y * Y + Z * Z + W * W ≠ 0 := by
      intro h0
      exact h (by rw [h0] at hlen ⊢; exact mul_self_eq_zero.mp hlen)
    dsimp only
    field_simp
    linear_combination -hlen

theorem advanceOrientation_normSq (sqrt : K → K)
    (hs : ∀ x : K, 0 ≤ x → sqrt x * sqrt x = x)
    (orientation : Quat K) (angularVelocity : Vec3 K) (dt : K) :
    quatNormSq (advanceOrientation sqrt orientation angularVelocity dt) = 1 := by
  unfold advanceOrientation
  exact quatNormalize_normSq sqrt hs _

/-- Every rigid-body orientation in the state committed by a `step()` has
squared norm exactly 1, whatever the integrator, because every integrator
writes `advanceOrientation`'s renormalized quaternion last. -/
theorem step_orientation_normSq (sqrt : K → K)
    (hs : ∀ x : K, 0 ≤ x → sqrt x * sqrt x = x) (e : Engine K) :
    ∀ rb ∈ (Engine.step sqrt e).state.rigidBodies, quatNormSq rb.orientation = 1 := by
  intro rb hrb
  cases h : e.integratorName <;>
    simp only [Engine.step, pickIntegrator, h, integrateEuler,
      integrateSemiImplicitEuler, integrateRK4] at hrb <;>
    (obtain ⟨i, r, hr, rfl⟩ := listMapIdx_mem _ _ _ hrb;
     exact advanceOrientation_normSq sqrt hs _ _ _)

theorem stepN_orientation_normSq (sqrt : K → K)
    (hs : ∀ x : K, 0 ≤ x → sqrt x * sqrt x = x) (n : Nat) (e : Engine K)
    (he : ∀ rb ∈ e.state.rigidBodies, quatNormSq rb.orientation = 1) :
    ∀ rb ∈ (stepN sqrt n e).state.rigidBodies, quatNormSq rb.orientation = 1 := by
  induction n generalizing e with
  | zero => exact he
  | succ m ih =>
    exact ih (Engine.step sqrt e) (step_orientation_normSq sqrt hs e)

/-- C5: when every configured rigid body starts with a unit orientation
quaternion (the declared invariant of `RigidBodyBoxConfig`), every state
the engine produces — right after construction and after any number of
`step()` calls with any integrator — has every rigid-body orientation
norm within `1e-9` of 1 (indeed exactly 1 in exact arithmetic). -/
theorem engine_orientation_unit_norm (sqrt : K → K)
    (hs : ∀ x : K, 0 ≤ x → sqrt x * sqrt x = x)
    (hn : ∀ x : K, 0 ≤ x → 0 ≤ sqrt x)
    (c : SimulationConfig K)
    (hc : ∀ rb ∈ c.rigidBodies.getD [], quatNormSq rb.orientation = 1)
    (n : Nat) :
    ∀ rb ∈ (stepN sqrt n (construct c)).state.rigidBodies,
      |sqrt (quatNormSq rb.orientation) - 1| ≤ 1 / 10 ^ 9 := by
  have hinit : ∀ rb ∈ (construct c).state.rigidBodies,
      quatNormSq rb.orientation = 1 := by
    intro rb hrb
    simp only [construct, List.mem_map] at hrb
    obtain ⟨cfg, hcfg, rfl⟩ := hrb
    exact hc cfg hcfg
  have hall := stepN_orientation_normSq sqrt hs n (construct c) hinit
  intro rb hrb
  rw [hall rb hrb]
  have h1 : sqrt 1 * sqrt 1 = 1 := hs 1 zero_le_one
  have h2 : 0 ≤ sqrt 1 := hn 1 zero_le_one
  have h3 : sqrt (1 : K) = 1 := by
    rcases mul_self_eq_one_iff.mp h1 with h | h
    · exact h
    · nlinarith
  rw [h3]
  norm_num

end ClaimC5

section ClaimC4

variable {K : Type} [LinearOrderedField K]

/-- Total linear momentum `Σ mᵢ·vᵢ` of the point masses of a state. -/
def totalPointMomentum (st : SimulationState K) : Vec3 K :=
  st.pointMasses.foldl (fun acc pm => vecAdd acc (vecScale pm.velocity pm.mass)) v3zero

theorem rk4Stage_pointMasses_pair (sqrt : K → K) (d : Derivative K) (h : K)
    (st : SimulationState K) (p q : PointMassState K)
    (hst : st.pointMasses = [p, q]) :
    (rk4Stage sqrt d h st).pointMasses =
      [{ p with position := vecAdd p.position (vecScale p.velocity h),
                velocity := vecAdd p.velocity (vecScale (d.pointAccelerations.getD 0 v3zero) h) },
       { q with position := vecAdd q.position (vecScale q.velocity h),
                velocity := vecAdd q.velocity (vecScale (d.pointAccelerations.getD 1 v3zero) h) }] := by
  simp [rk4Stage, hst, listMapIdx, listMapIdxGo]

/-- On a two-point-mass state with a single spring whose anchors resolve
to indices 0 and 1 and with neither gravity nor drag configured, the
derivative evaluator's accelerations are mass-weighted opposites: the
total force is zero (Newton's third law as implemented). -/
theorem twoMass_deriv_weighted (sqrt : K → K) (e : Engine K) (spr : SpringConfig K)
    (st : SimulationState K) (p q : PointMassState K)
    (hst : st.pointMasses = [p, q])
    (hspr : e.springs = [spr])
    (hg : optGravity e.forces = none) (hd : optLinearDrag e.forces = none)
    (ha : mapGet e.pointMassIndexById spr.aId = some 0)
    (hb : mapGet e.pointMassIndexById spr.bId = some 1)
    (hp : p.mass ≠ 0) (hq : q.mass ≠ 0) :
    vecAdd
      (vecScale ((engineComputeDerivative sqrt e st).pointAccelerations.getD 0 v3zero) p.mass)
      (vecScale ((engineComputeDerivative sqrt e st).pointAccelerations.getD 1 v3zero) q.mass)
      = v3zero := by
  simp only [engineComputeDerivative, hspr, hst, List.map_cons, List.map_nil,
    List.foldl_cons, List.foldl_nil, springAccumulate, ha, hb,
    sumAccelerationsForPointMass, hg, hd, gravityAcceleration,
    linearDragAcceleration, List.getD_cons_zero, List.getD_cons_succ, listModify]
  simp only [vecAdd, vecScale, v3zero, Vec3.mk.injEq, List.getD_cons_zero,
    List.getD_cons_succ]
  refine ⟨?_, ?_, ?_⟩ <;> (field_simp; try ring)

end ClaimC4

section ClaimC4Main

variable {K : Type} [LinearOrderedField K]

/-- C4: for two point masses joined by a single spring, with no gravity
and no linear drag configured and no other springs, `step()` conserves
total momentum `mₐ·vₐ + m_b·v_b` exactly (in exact field arithmetic), for
every integrator, because the spring contributes accelerations `+F/mₐ`
and `−F/m_b`. -/
theorem step_conserves_momentum (sqrt : K → K) (e : Engine K)
    (spr : SpringConfig K) (a b : PointMassState K)
    (hpm : e.state.pointMasses = [a, b])
    (hspr : e.springs = [spr])
    (hg : optGravity e.forces = none) (hd : optLinearDrag e.forces = none)
    (ha : mapGet e.pointMassIndexById spr.aId = some 0)
    (hb : mapGet e.pointMassIndexById spr.bId = some 1)
    (hma : a.mass ≠ 0) (hmb : b.mass ≠ 0) :
    totalPointMomentum (Engine.step sqrt e).state = totalPointMomentum e.state := by
  have W1 := twoMass_deriv_weighted sqrt e spr e.state a b hpm hspr hg hd ha hb hma hmb
  have W1x := congrArg Vec3.x W1
  have W1y := congrArg Vec3.y W1
  have W1z := congrArg Vec3.z W1
  simp only [vecAdd, vecScale, v3zero] at W1x W1y W1z
  cases hI : e.integratorName with
  | euler =>
    simp only [Engine.step, pickIntegrator, hI, integrateEuler, totalPointMomentum,
      hpm, listMapIdx, listMapIdxGo, List.foldl_cons, List.foldl_nil]
    simp only [vecAdd, vecScale, v3zero, Vec3.mk.injEq]
    refine ⟨?_, ?_, ?_⟩
    · linear_combination e.dt * W1x
    · linear_combination e.dt * W1y
    · linear_combination e.dt * W1z
  | semi =>
    simp only [Engine.step, pickIntegrator, hI, integrateSemiImplicitEuler,
      totalPointMomentum, hpm, listMapIdx, listMapIdxGo, List.foldl_cons, List.foldl_nil]
    simp only [vecAdd, vecScale, v3zero, Vec3.mk.injEq]
    refine ⟨?_, ?_, ?_⟩
    · linear_combination e.dt * W1x
    · linear_combination e.dt * W1y
    · linear_combination e.dt * W1z
  | rk4 =>
    have hst2 := rk4Stage_pointMasses_pair sqrt
      (engineComputeDerivative sqrt e e.state) (e.dt * (1 / 2)) e.state a b hpm
    have W2 := twoMass_deriv_weighted sqrt e spr
      (rk4Stage sqrt (engineComputeDerivative sqrt e e.state) (e.dt * (1 / 2)) e.state)
      _ _ hst2 hspr hg hd ha hb hma hmb
    have hst3 := rk4Stage_pointMasses_pair sqrt
      (engineComputeDerivative sqrt e
        (rk4Stage sqrt (engineComputeDerivative sqrt e e.state) (e.dt * (1 / 2)) e.state))
      (e.dt * (1 / 2)) e.state a b hpm
    have W3 := twoMass_deriv_weighted sqrt e spr
      (rk4Stage sqrt
        (engineComputeDerivative sqrt e
          (rk4Stage sqrt (engineComputeDerivative sqrt e e.state) (e.dt * (1 / 2)) e.state))
        (e.dt * (1 / 2)) e.state)
      _ _ hst3 hspr hg hd ha hb hma hmb
    have hst4 := rk4Stage_pointMasses_pair sqrt
      (engineComputeDerivative sqrt e
        (rk4Stage sqrt
          (engineComputeDerivative sqrt e
            (rk4Stage sqrt (engineComputeDerivative sqrt e e.state) (e.dt * (1 / 2)) e.state))
          (e.dt * (1 / 2)) e.state))
      e.dt e.state a b hpm
    have W4 := twoMass_deriv_weighted sqrt e spr
      (rk4Stage sqrt
        (engineComputeDerivative sqrt e
          (rk4Stage sqrt
            (engineComputeDerivative sqrt e
              (rk4Stage sqrt (engineComputeDerivative sqrt e e.state) (e.dt * (1 / 2)) e.state))
            (e.dt * (1 / 2)) e.state))
        e.dt e.state)
      _ _ hst4 hspr hg hd ha hb hma hmb
    have W2x := congrArg Vec3.x W2
    have W2y := congrArg Vec3.y W2
    have W2z := congrArg Vec3.z W2
    have W3x := congrArg Vec3.x W3
    have W3y := congrArg Vec3.y W3
    have W3z := congrArg Vec3.z W3
    have W4x := congrArg Vec3.x W4
    have W4y := congrArg Vec3.y W4
    have W4z := congrArg Vec3.z W4
    simp only [vecAdd, vecScale, v3zero] at W2x W2y W2z W3x W3y W3z W4x W4y W4z
    simp only [Engine.step, pickIntegrator, hI, integrateRK4, totalPointMomentum,
      hpm, listMapIdx, listMapIdxGo, List.foldl_cons, List.foldl_nil]
    simp only [vecAdd, vecScale, v3zero, Vec3.mk.injEq]
    refine ⟨?_, ?_, ?_⟩
    · linear_combination (e.dt / 6) * W1x + (e.dt / 3) * W2x + (e.dt / 3) * W3x + (e.dt / 6) * W4x
    · linear_combination (e.dt / 6) * W1y + (e.dt / 3) * W2y + (e.dt / 3) * W3y + (e.dt / 6) * W4y
    · linear_combination (e.dt / 6) * W1z + (e.dt / 3) * W2z + (e.dt / 3) * W3z + (e.dt / 6) * W4z

end ClaimC4Main

section Witnesses

/-- A stand-in for `Math.sqrt` in rational instantiations; the theorems
quantified over an arbitrary `sqrt` hold for it. -/
def sqrtStub : ℚ → ℚ := fun _ => 0

/-- A one-point-mass state used to instantiate integrator theorems. -/
def stW : SimulationState ℚ :=
  { time := 0, stepIndex := 0,
    pointMasses := [{ id := "a", mass := 1, position := ⟨0, 0, 0⟩, velocity := ⟨0, 0, 0⟩ }],
    rigidBodies := [] }

/-- A constant derivative evaluator used to instantiate integrator
theorems. -/
def derivW : SimulationState ℚ → Derivative ℚ :=
  fun _ => ⟨[⟨1, 0, 0⟩], [], []⟩

def cfgW1 : SimulationConfig ℚ :=
  { dt := 1, integrator := .rk4,
    pointMasses := some [{ id := "a", mass := 2, position := ⟨0, 0, 0⟩, velocity := ⟨4, 5, 6⟩ }] }

def engW1 : Engine ℚ := construct cfgW1

theorem applyImpulse_changes_velocity_witness :
    mapGet engW1.pointMassIndexById "a" = some 0 ∧
    0 < engW1.state.pointMasses.length ∧
    (((engW1.applyImpulse "a" ⟨1, 2, 3⟩).state.pointMasses.getD 0 pmDefault).velocity =
      vecAdd (engW1.state.pointMasses.getD 0 pmDefault).velocity
        ⟨(⟨1, 2, 3⟩ : Vec3 ℚ).x / (engW1.state.pointMasses.getD 0 pmDefault).mass,
         (⟨1, 2, 3⟩ : Vec3 ℚ).y / (engW1.state.pointMasses.getD 0 pmDefault).mass,
         (⟨1, 2, 3⟩ : Vec3 ℚ).z / (engW1.state.pointMasses.getD 0 pmDefault).mass⟩ ∧
     ((engW1.applyImpulse "a" ⟨1, 2, 3⟩).state.pointMasses.getD 0 pmDefault).position =
       (engW1.state.pointMasses.getD 0 pmDefault).position ∧
     ((engW1.applyImpulse "a" ⟨1, 2, 3⟩).state.pointMasses.getD 0 pmDefault).id =
       (engW1.state.pointMasses.getD 0 pmDefault).id ∧
     ((engW1.applyImpulse "a" ⟨1, 2, 3⟩).state.pointMasses.getD 0 pmDefault).mass =
       (engW1.state.pointMasses.getD 0 pmDefault).mass ∧
     (engW1.applyImpulse "a" ⟨1, 2, 3⟩).state.time = engW1.state.time ∧
     (engW1.applyImpulse "a" ⟨1, 2, 3⟩).state.stepIndex = engW1.state.stepIndex ∧
     (engW1.applyImpulse "a" ⟨1, 2, 3⟩).state.rigidBodies = engW1.state.rigidBodies) :=
  ⟨by decide, by decide,
   applyImpulse_changes_velocity_by_J_div_m engW1 "a" ⟨1, 2, 3⟩ 0 (by decide) (by decide)⟩

theorem semiImplicit_pointMass_update_witness :
    0 < stW.pointMasses.length ∧
    (((integrateSemiImplicitEuler sqrtStub derivW 1 stW).pointMasses.getD 0 pmDefault).velocity =
      vecAdd (stW.pointMasses.getD 0 pmDefault).velocity
        (vecScale ((derivW stW).pointAccelerations.getD 0 v3zero) 1) ∧
     ((integrateSemiImplicitEuler sqrtStub derivW 1 stW).pointMasses.getD 0 pmDefault).position =
      vecAdd (stW.pointMasses.getD 0 pmDefault).position
        (vecScale
          (vecAdd (stW.pointMasses.getD 0 pmDefault).velocity
            (vecScale ((derivW stW).pointAccelerations.getD 0 v3zero) 1)) 1)) :=
  ⟨by decide, semiImplicit_pointMass_update sqrtStub derivW 1 stW 0 (by decide)⟩

theorem rk4_pointMass_update_witness :
    0 < stW.pointMasses.length ∧
    (((integrateRK4 sqrtStub derivW 1 stW).pointMasses.getD 0 pmDefault).velocity =
      vecAdd (stW.pointMasses.getD 0 pmDefault).velocity
        (vecScale
          ⟨((derivW stW).pointAccelerations.getD 0 v3zero).x
              + 2 * ((derivW (rk4Stage sqrtStub (derivW stW) (1 * (1 / 2)) stW)).pointAccelerations.getD 0 v3zero).x
              + 2 * ((derivW (rk4Stage sqrtStub (derivW (rk4Stage sqrtStub (derivW stW) (1 * (1 / 2)) stW)) (1 * (1 / 2)) stW)).pointAccelerations.getD 0 v3zero).x
              + ((derivW (rk4Stage sqrtStub (derivW (rk4Stage sqrtStub (derivW (rk4Stage sqrtStub (derivW stW) (1 * (1 / 2)) stW)) (1 * (1 / 2)) stW)) 1 stW)).pointAccelerations.getD 0 v3zero).x,
           ((derivW stW).pointAccelerations.getD 0 v3zero).y
              + 2 * ((derivW (rk4Stage sqrtStub (derivW stW) (1 * (1 / 2)) stW)).pointAccelerations.getD 0 v3zero).y
              + 2 * ((derivW (rk4Stage sqrtStub (derivW (rk4Stage sqrtStub (derivW stW) (1 * (1 / 2)) stW)) (1 * (1 / 2)) stW)).pointAccelerations.getD 0 v3zero).y
              + ((derivW (rk4Stage sqrtStub (derivW (rk4Stage sqrtStub (derivW (rk4Stage sqrtStub (derivW stW) (1 * (1 / 2)) stW)) (1 * (1 / 2)) stW)) 1 stW)).pointAccelerations.getD 0 v3zero).y,
           ((derivW stW).pointAccelerations.getD 0 v3zero).z
              + 2 * ((derivW (rk4Stage sqrtStub (derivW stW) (1 * (1 / 2)) stW)).pointAccelerations.getD 0 v3zero).z
              + 2 * ((derivW (rk4Stage sqrtStub (derivW (rk4Stage sqrtStub (derivW stW) (1 * (1 / 2)) stW)) (1 * (1 / 2)) stW)).pointAccelerations.getD 0 v3zero).z
              + ((derivW (rk4Stage sqrtStub (derivW (rk4Stage sqrtStub (derivW (rk4Stage sqrtStub (derivW stW) (1 * (1 / 2)) stW)) (1 * (1 / 2)) stW)) 1 stW)).pointAccelerations.getD 0 v3zero).z⟩
          (1 / 6)) ∧
     ((integrateRK4 sqrtStub derivW 1 stW).pointMasses.getD 0 pmDefault).position =
      vecAdd (stW.pointMasses.getD 0 pmDefault).position
        (vecScale ((integrateRK4 sqrtStub derivW 1 stW).pointMasses.getD 0 pmDefault).velocity 1)) :=
  ⟨by decide, rk4_pointMass_update sqrtStub derivW 1 stW 0 (by decide)⟩

def aW : PointMassState ℚ :=
  { id := "a", mass := 1, position := ⟨0, 0, 0⟩, velocity := ⟨1, 0, 0⟩ }

def bW : PointMassState ℚ :=
  { id := "b", mass := 1, position := ⟨1, 0, 0⟩, velocity := ⟨0, 0, 0⟩ }

def sprW : SpringConfig ℚ :=
  { id := "s", aId := "a", bId := "b", restLength := 1, stiffness := 10 }

def engW4 : Engine ℚ := construct
  { dt := 1, integrator := .rk4,
    pointMasses := some
      [{ id := "a", mass := 1, position := ⟨0, 0, 0⟩, velocity := ⟨1, 0, 0⟩ },
       { id := "b", mass := 1, position := ⟨1, 0, 0⟩, velocity := ⟨0, 0, 0⟩ }],
    springs := some [sprW] }

theorem step_conserves_momentum_witness :
    engW4.state.pointMasses = [aW, bW] ∧
    engW4.springs = [sprW] ∧
    optGravity engW4.forces = none ∧
    optLinearDrag engW4.forces = none ∧
    mapGet engW4.pointMassIndexById sprW.aId = some 0 ∧
    mapGet engW4.pointMassIndexById sprW.bId = some 1 ∧
    aW.mass ≠ 0 ∧ bW.mass ≠ 0 ∧
    totalPointMomentum (Engine.step sqrtStub engW4).state = totalPointMomentum engW4.state :=
  ⟨rfl, rfl, rfl, rfl, by decide, by decide, one_ne_zero, one_ne_zero,
   step_conserves_momentum sqrtStub engW4 sprW aW bW rfl rfl rfl rfl
     (by decide) (by decide) one_ne_zero one_ne_zero⟩

def cfgW5 : SimulationConfig ℝ :=
  { dt := 1, integrator := .euler,
    rigidBodies := some
      [{ id := "box", mass := 1, size := ⟨1, 1, 1⟩, position := ⟨0, 0, 0⟩,
         velocity := ⟨0, 0, 0⟩, orientation := ⟨0, 0, 0, 1⟩,
         angularVelocity := ⟨1, 0, 0⟩ }] }

theorem engine_orientation_unit_norm_witness :
    (∀ x : ℝ, 0 ≤ x → Real.sqrt x * Real.sqrt x = x) ∧
    (∀ x : ℝ, 0 ≤ x → 0 ≤ Real.sqrt x) ∧
    (∀ rb ∈ cfgW5.rigidBodies.getD [], quatNormSq rb.orientation = 1) ∧
    (∀ rb ∈ (stepN Real.sqrt 0 (construct cfgW5)).state.rigidBodies,
      |Real.sqrt (quatNormSq rb.orientation) - 1| ≤ 1 / 10 ^ 9) := by
  have hs : ∀ x : ℝ, 0 ≤ x → Real.sqrt x * Real.sqrt x = x :=
    fun x hx => Real.mul_self_sqrt hx
  have hn : ∀ x : ℝ, 0 ≤ x → 0 ≤ Real.sqrt x :=
    fun x _ => Real.sqrt_nonneg x
  have hc : ∀ rb ∈ cfgW5.rigidBodies.getD [], quatNormSq rb.orientation = 1 := by
    intro rb hrb
    simp only [cfgW5, Option.getD_some, List.mem_singleton] at hrb
    subst hrb
    simp [quatNormSq]
  exact ⟨hs, hn, hc, engine_orientation_unit_norm Real.sqrt hs hn cfgW5 hc 0⟩

def sprGhost : SpringConfig ℚ :=
  { id := "s", aId := "ghost", bId := "b", restLength := 1, stiffness := 1 }

def engW7 : Engine ℚ := construct
  { dt := 1, integrator := .semi,
    pointMasses := some [{ id := "b", mass := 1, position := ⟨0, 0, 0⟩, velocity := ⟨0, 0, 0⟩ }],
    springs := some [sprGhost] }

theorem step_skips_unresolved_spring_witness :
    engW7.springs = [] ++ sprGhost :: [] ∧
    (mapGet engW7.pointMassIndexById sprGhost.aId = none ∨
     mapGet engW7.pointMassIndexById sprGhost.bId = none) ∧
    ((∀ st : SimulationState ℚ,
        engineComputeDerivative sqrtStub engW7 st =
          engineComputeDerivative sqrtStub { engW7 with springs := [] ++ [] } st) ∧
     (Engine.step sqrtStub engW7).state =
       (Engine.step sqrtStub { engW7 with springs := [] ++ [] }).state) :=
  ⟨rfl, Or.inl (by decide),
   step_skips_unresolved_spring sqrtStub engW7 sprGhost [] [] rfl (Or.inl (by decide))⟩

def engW8 : Engine ℚ := construct { dt := 1, integrator := .euler }

theorem applyImpulse_unknown_id_noop_witness :
    mapGet engW8.pointMassIndexById "nobody" = none ∧
    (∀ r ∈ engW8.state.rigidBodies, r.id ≠ "nobody") ∧
    engW8.applyImpulse "nobody" ⟨1, 1, 1⟩ = engW8 := by
  have hrb : ∀ r ∈ engW8.state.rigidBodies, r.id ≠ "nobody" := by
    intro r hr
    simp [engW8, construct] at hr
  exact ⟨by decide, hrb,
    applyImpulse_unknown_id_noop engW8 "nobody" ⟨1, 1, 1⟩ (by decide) hrb⟩

def cfgW9 : SimulationConfig ℚ := { dt := 1, integrator := .rk4 }

theorem engine_run_deterministic_witness :
    EngineTrace sqrtStub (construct cfgW9) [EngineOp.step]
      [Engine.getState (Engine.step sqrtStub (construct cfgW9))] ∧
    EngineTrace sqrtStub (construct cfgW9) [EngineOp.step]
      [Engine.getState (Engine.step sqrtStub (construct cfgW9))] ∧
    [Engine.getState (Engine.step sqrtStub (construct cfgW9))] =
      [Engine.getState (Engine.step sqrtStub (construct cfgW9))] := by
  have tr : EngineTrace sqrtStub (construct cfgW9) [EngineOp.step]
      [Engine.getState (Engine.step sqrtStub (construct cfgW9))] :=
    EngineTrace.cons _ _ _ _ _ (EngineTransition.stepOp _) (EngineTrace.nil _)
  exact ⟨tr, tr, engine_run_deterministic sqrtStub cfgW9 [EngineOp.step] _ _ tr tr⟩

end Witnesses
